import Mathlib

/-!
Shallow embedding of the contract in src/contracts/WordGameFHE.sol.

Modelling choices:
* `euint32` ciphertext handles are modelled by their cleartext `Nat` values;
  `FHE.eq` and `FHE.and` act on those cleartexts, `ebool` is `Bool`.
* `address` is `Nat` (0 is the zero address, the default of a Solidity
  mapping slot).
* Solidity mappings are total functions with the type's zero default.
* Every externally callable function returns `Except String (World × List Event)`:
  `Except.error msg` models `revert`/failed `require(_, msg)`, which rolls the
  whole call back.  The runner `step` makes that rollback explicit: a reverted
  call leaves the state unchanged and emits nothing.
* The FHE decryption gateway is external to the contract: its request counter
  and the log of submitted ciphertext lists live in `OracleState`, separate
  from the contract storage `ContractState`.  `FHE.requestDecryption` draws a
  fresh request id from that counter.  `FHE.checkSignatures` is abstracted by
  a Boolean verdict `proofOk` of the external verifier for the supplied
  (requestId, cleartexts, proof) triple; when the verdict is false the call
  reverts, exactly as the library function does.
-/

namespace WordGameFHE

/-- Seconds in one Solidity `1 days`. -/
def secondsPerDay : Nat := 86400

/-- Cleartext semantics of `FHE.eq` on two `euint32` handles. -/
def fheEq (x y : Nat) : Bool := x == y

/-- Cleartext semantics of `FHE.and` on two `ebool` handles. -/
def fheAnd (x y : Bool) : Bool := x && y

/-- Cleartext semantics of `FHE.asEbool`. -/
def fheAsEbool (b : Bool) : Bool := b

/-- struct EncryptedGuess: 5 encrypted letters, submission timestamp, player. -/
structure EncryptedGuess where
  letters : Fin 5 → Nat
  timestamp : Nat
  player : Nat

/-- struct EncryptedAnswer: 5 encrypted letters and the day it was set. -/
structure EncryptedAnswer where
  letters : Fin 5 → Nat
  day : Nat

/-- struct PlayerStats: wins, attempts, lastPlayedDay. -/
structure PlayerStats where
  wins : Nat
  attempts : Nat
  lastPlayedDay : Nat

/-- The contract's durable storage, field for field. -/
structure ContractState where
  currentAnswer : EncryptedAnswer
  guesses : Nat → EncryptedGuess
  guessCount : Nat
  playerStats : Nat → PlayerStats
  dailyWinners : Nat → List Nat
  requestToGuessId : Nat → Nat

/-- The external FHE decryption gateway: a fresh-request-id counter and the
log of decryption requests (request id, submitted ciphertext list). -/
structure OracleState where
  nextRequestId : Nat
  requests : List (Nat × List Bool)

/-- Contract storage together with the external gateway state. -/
structure World where
  contract : ContractState
  oracle : OracleState

/-- The contract's events. -/
inductive Event where
  | GuessSubmitted (guessId player : Nat)
  | GuessEvaluated (guessId player : Nat) (isCorrect : Bool)
  | NewDailyAnswer (day : Nat)
deriving DecidableEq

/-- Zero value of an EncryptedGuess mapping slot. -/
def defaultGuess : EncryptedGuess := ⟨fun _ => 0, 0, 0⟩

/-- Zero value of a PlayerStats mapping slot. -/
def defaultStats : PlayerStats := ⟨0, 0, 0⟩

/-- Freshly deployed contract: every storage slot at its zero value. -/
def initWorld : World :=
  { contract :=
      { currentAnswer := ⟨fun _ => 0, 0⟩
        guesses := fun _ => defaultGuess
        guessCount := 0
        playerStats := fun _ => defaultStats
        dailyWinners := fun _ => []
        requestToGuessId := fun _ => 0 }
    oracle := { nextRequestId := 1, requests := [] } }

/-- FHE.requestDecryption: the gateway hands out a fresh request id and
records the submitted ciphertext list. -/
def requestDecryption (ciphertexts : List Bool) (o : OracleState) :
    Nat × OracleState :=
  (o.nextRequestId,
   { nextRequestId := o.nextRequestId + 1
     requests := o.requests ++ [(o.nextRequestId, ciphertexts)] })

/-- setDailyAnswer(encryptedLetters): unconditionally replaces the current
answer, stamps it with block.timestamp / 1 days, and emits NewDailyAnswer.
The Solidity function reads nothing from msg.sender; the caller argument is
carried to reflect that any caller may invoke it. -/
def setDailyAnswer (encryptedLetters : Fin 5 → Nat) (timestamp _sender : Nat)
    (w : World) : World × List Event :=
  let day := timestamp / secondsPerDay
  ({ w with contract := { w.contract with currentAnswer := ⟨encryptedLetters, day⟩ } },
   [Event.NewDailyAnswer day])

/-- submitGuess(encryptedLetters), called by `sender` at `timestamp`:
answerExists modifier, then the current-day and already-played requires,
then stores the guess under guessCount+1 and updates the player's stats. -/
def submitGuess (encryptedLetters : Fin 5 → Nat) (sender timestamp : Nat)
    (w : World) : Except String (World × List Event) :=
  if w.contract.currentAnswer.day = 0 then .error "Answer not set"
  else
    let currentDay := timestamp / secondsPerDay
    if currentDay = w.contract.currentAnswer.day then
      if (w.contract.playerStats sender).lastPlayedDay < currentDay then
        let c := w.contract
        let gc := c.guessCount + 1
        let c2 : ContractState :=
          { c with
            guessCount := gc
            guesses := Function.update c.guesses gc
              ⟨encryptedLetters, timestamp, sender⟩
            playerStats := Function.update c.playerStats sender
              { c.playerStats sender with
                lastPlayedDay := currentDay
                attempts := (c.playerStats sender).attempts + 1 } }
        .ok ({ w with contract := c2 }, [Event.GuessSubmitted gc sender])
      else .error "Already played today"
    else .error "Not current day"

/-- The loop body of evaluateGuess: starting from FHE.asEbool(true), AND in
the encrypted equality of guess letter i and answer letter i for i = 0..4. -/
def computeIsCorrect (guess answer : Fin 5 → Nat) : Bool :=
  (List.finRange 5).foldl
    (fun acc i => fheAnd acc (fheEq (guess i) (answer i)))
    (fheAsEbool true)

/-- evaluateGuess(guessId), called by `sender`: answerExists modifier, owner
check, existence check, then computes the encrypted correctness flag, submits
it (alone) for decryption and records requestId → guessId. -/
def evaluateGuess (guessId sender : Nat) (w : World) :
    Except String (World × List Event) :=
  if w.contract.currentAnswer.day = 0 then .error "Answer not set"
  else
    let guess := w.contract.guesses guessId
    if guess.player = sender then
      if guess.timestamp = 0 then .error "Invalid guess"
      else
        let isCorrect := computeIsCorrect guess.letters w.contract.currentAnswer.letters
        let r := requestDecryption [isCorrect] w.oracle
        .ok ({ contract :=
                 { w.contract with
                   requestToGuessId :=
                     Function.update w.contract.requestToGuessId r.1 guessId }
               oracle := r.2 }, [])
    else .error "Not your guess"

/-- handleEvaluationResult(requestId, cleartexts, proof): looks up the guess
for the request, verifies the attestation (reverting when it fails), decodes
the boolean, applies the win/scoreboard side effect when true, and always
emits GuessEvaluated.  `cleartexts` carries the decoded boolean and `proofOk`
the external verifier's verdict for the supplied triple. -/
def handleEvaluationResult (requestId : Nat) (cleartexts proofOk : Bool)
    (w : World) : Except String (World × List Event) :=
  let guessId := w.contract.requestToGuessId requestId
  let guess := w.contract.guesses guessId
  if proofOk then
    let isCorrect := cleartexts
    let c := w.contract
    let c2 : ContractState :=
      if isCorrect then
        { c with
          playerStats := Function.update c.playerStats guess.player
            { c.playerStats guess.player with
              wins := (c.playerStats guess.player).wins + 1 }
          dailyWinners := Function.update c.dailyWinners c.currentAnswer.day
            (c.dailyWinners c.currentAnswer.day ++ [guess.player]) }
      else c
    .ok ({ w with contract := c2 },
         [Event.GuessEvaluated guessId guess.player isCorrect])
  else .error "Invalid decryption attestation"

/-- One external call to the contract, with its call context. -/
inductive Op where
  | setAnswer (letters : Fin 5 → Nat) (timestamp sender : Nat)
  | submit (letters : Fin 5 → Nat) (sender timestamp : Nat)
  | evaluate (guessId sender : Nat)
  | handle (requestId : Nat) (cleartexts proofOk : Bool)

/-- Transaction semantics of one call: a revert rolls everything back, so a
failing call leaves the state unchanged and emits no event. -/
def step (w : World) : Op → World × List Event
  | .setAnswer l t a => setDailyAnswer l t a w
  | .submit l a t =>
      match submitGuess l a t w with
      | .ok r => r
      | .error _ => (w, [])
  | .evaluate g a =>
      match evaluateGuess g a w with
      | .ok r => r
      | .error _ => (w, [])
  | .handle r c p =>
      match handleEvaluationResult r c p w with
      | .ok r2 => r2
      | .error _ => (w, [])

/-- Run a sequence of calls. -/
def run (w : World) : List Op → World
  | [] => w
  | op :: ops => run (step w op).1 ops

/-- 1 when the call is a submitGuess that succeeds in state `w`, else 0. -/
def submitSuccessBit (w : World) : Op → Nat
  | .submit l a t =>
      match submitGuess l a t w with
      | .ok _ => 1
      | .error _ => 0
  | _ => 0

/-- Number of successful submitGuess calls along a trace from `w`. -/
def successCount (w : World) : List Op → Nat
  | [] => 0
  | op :: ops => submitSuccessBit w op + successCount (step w op).1 ops

/-- The state a successful submitGuess commits: the guess stored under the
next id, the submitter's lastPlayedDay and attempts updated, nothing else. -/
def submitSucc (l : Fin 5 → Nat) (a t : Nat) (w : World) : World :=
  { w with contract :=
    { w.contract with
      guessCount := w.contract.guessCount + 1
      guesses := Function.update w.contract.guesses (w.contract.guessCount + 1)
        ⟨l, t, a⟩
      playerStats := Function.update w.contract.playerStats a
        { w.contract.playerStats a with
          lastPlayedDay := t / secondsPerDay
          attempts := (w.contract.playerStats a).attempts + 1 } } }

/-- The state a successful evaluateGuess commits: the fresh request id mapped
to the guess id in contract storage, and the single-flag decryption request
logged at the gateway. -/
def evalSucc (g : Nat) (w : World) : World :=
  { contract :=
      { w.contract with
        requestToGuessId :=
          Function.update w.contract.requestToGuessId w.oracle.nextRequestId g }
    oracle :=
      { nextRequestId := w.oracle.nextRequestId + 1
        requests := w.oracle.requests ++
          [(w.oracle.nextRequestId,
            [computeIsCorrect (w.contract.guesses g).letters
              w.contract.currentAnswer.letters])] } }

/-- The state a successful handleEvaluationResult commits: on a true result,
the win counter of the recorded guess's player is bumped and the player is
appended to the current day's winner list; on false nothing changes. -/
def handleSucc (requestId : Nat) (isCorrect : Bool) (w : World) : World :=
  let guessId := w.contract.requestToGuessId requestId
  let player := (w.contract.guesses guessId).player
  if isCorrect then
    { w with contract :=
      { w.contract with
        playerStats := Function.update w.contract.playerStats player
          { w.contract.playerStats player with
            wins := (w.contract.playerStats player).wins + 1 }
        dailyWinners := Function.update w.contract.dailyWinners
          w.contract.currentAnswer.day
          (w.contract.dailyWinners w.contract.currentAnswer.day ++ [player]) } }
  else w

/-- One evaluateGuess call followed by the oracle resolving the request it
just created, with a true cleartext and a passing attestation. -/
def evalResolveRound (g a : Nat) (w : World) : World :=
  (step (step w (.evaluate g a)).1 (.handle w.oracle.nextRequestId true true)).1

/-- Iterate evalResolveRound n times. -/
def rounds (g a : Nat) : Nat → World → World
  | 0, w => w
  | n + 1, w => rounds g a n (evalResolveRound g a w)

/-- Guesses without gaps: an id holds a stored guess exactly when it lies
between 1 and guessCount.  A stored guess is recognised by its nonzero
timestamp, which submitGuess guarantees (the submission day is nonzero). -/
def GoodIds (w : World) : Prop :=
  ∀ i, (w.contract.guesses i).timestamp ≠ 0 ↔ 1 ≤ i ∧ i ≤ w.contract.guessCount

/-- A sample encrypted answer: letters 10..14. -/
def ansLetters : Fin 5 → Nat := fun i => i.val + 10

/-- World after the admin sets the answer at timestamp 604800 (day 7). -/
def w7 : World := (setDailyAnswer ansLetters 604800 9 initWorld).1

/-- World after player 5 then submits the correct word on day 7. -/
def w7s : World := (step w7 (.submit ansLetters 5 604800)).1

/-- Set the answer for day 7, player 5 submits the correct word, requests
evaluation, and the oracle resolves the request once (true, attested). -/
def resolveOnceTrace : List Op :=
  [.setAnswer ansLetters 604800 9, .submit ansLetters 5 604800,
   .evaluate 1 5, .handle 1 true true]

/-- resolveOnceTrace followed by a replay of the same resolution call. -/
def resolveTwiceTrace : List Op :=
  resolveOnceTrace ++ [.handle 1 true true]

/-- A trace of one answer and one successful submission, for witnesses. -/
def oneSubmitTrace : List Op :=
  [.setAnswer ansLetters 604800 9, .submit ansLetters 5 604800]

/-- The evaluation loop computes exactly the conjunction, over the 5
positions, of the letterwise equalities of guess and answer. -/
theorem computeIsCorrect_eq (g a : Fin 5 → Nat) :
    computeIsCorrect g a = decide (∀ i : Fin 5, g i = a i) := by
  have h : (List.finRange 5) = [0, 1, 2, 3, 4] := by decide
  rw [computeIsCorrect, h]
  simp only [List.foldl, fheAnd, fheEq, fheAsEbool, Bool.true_and]
  rw [Bool.eq_iff_iff]
  simp only [Bool.and_eq_true, beq_iff_eq, decide_eq_true_eq, Fin.forall_fin_succ]
  constructor
  · rintro ⟨⟨⟨⟨h0, h1⟩, h2⟩, h3⟩, h4⟩
    exact ⟨h0, h1, h2, h3, h4, fun i => i.elim0⟩
  · rintro ⟨h0, h1, h2, h3, h4, -⟩
    exact ⟨⟨⟨⟨h0, h1⟩, h2⟩, h3⟩, h4⟩

/-- submitGuess succeeds exactly as submitSucc describes when its three
requires pass. -/
theorem submitGuess_ok (l : Fin 5 → Nat) (a t : Nat) (w : World)
    (hday : w.contract.currentAnswer.day ≠ 0)
    (hcur : t / secondsPerDay = w.contract.currentAnswer.day)
    (hlast : (w.contract.playerStats a).lastPlayedDay < t / secondsPerDay) :
    submitGuess l a t w =
      .ok (submitSucc l a t w, [Event.GuessSubmitted (w.contract.guessCount + 1) a]) := by
  unfold submitGuess
  rw [if_neg hday, if_pos hcur, if_pos hlast]
  rfl

/-- Inversion: a successful submitGuess forces its three requires and fully
determines the committed state and the emitted event. -/
theorem submitGuess_ok_inv (l : Fin 5 → Nat) (a t : Nat) (w w2 : World)
    (evs : List Event) (h : submitGuess l a t w = .ok (w2, evs)) :
    w.contract.currentAnswer.day ≠ 0 ∧
    t / secondsPerDay = w.contract.currentAnswer.day ∧
    (w.contract.playerStats a).lastPlayedDay < t / secondsPerDay ∧
    w2 = submitSucc l a t w ∧
    evs = [Event.GuessSubmitted (w.contract.guessCount + 1) a] := by
  unfold submitGuess at h
  by_cases h1 : w.contract.currentAnswer.day = 0
  · rw [if_pos h1] at h; exact absurd h (by simp)
  · rw [if_neg h1] at h
    by_cases h2 : t / secondsPerDay = w.contract.currentAnswer.day
    · rw [if_pos h2] at h
      by_cases h3 : (w.contract.playerStats a).lastPlayedDay < t / secondsPerDay
      · rw [if_pos h3] at h
        simp only [Except.ok.injEq, Prod.mk.injEq] at h
        exact ⟨h1, h2, h3, h.1.symm, h.2.symm⟩
      · rw [if_neg h3] at h; exact absurd h (by simp)
    · rw [if_neg h2] at h; exact absurd h (by simp)

/-- evaluateGuess succeeds exactly as evalSucc describes when its modifier
and two requires pass. -/
theorem evaluateGuess_ok (g a : Nat) (w : World)
    (hday : w.contract.currentAnswer.day ≠ 0)
    (hown : (w.contract.guesses g).player = a)
    (hts : (w.contract.guesses g).timestamp ≠ 0) :
    evaluateGuess g a w = .ok (evalSucc g w, []) := by
  unfold evaluateGuess
  rw [if_neg hday, if_pos hown, if_neg hts]
  rfl

/-- Inversion: a successful evaluateGuess forces its checks and fully
determines the committed state; it emits no event. -/
theorem evaluateGuess_ok_inv (g a : Nat) (w w2 : World) (evs : List Event)
    (h : evaluateGuess g a w = .ok (w2, evs)) :
    w.contract.currentAnswer.day ≠ 0 ∧
    (w.contract.guesses g).player = a ∧
    (w.contract.guesses g).timestamp ≠ 0 ∧
    w2 = evalSucc g w ∧ evs = [] := by
  unfold evaluateGuess at h
  by_cases h1 : w.contract.currentAnswer.day = 0
  · rw [if_pos h1] at h; exact absurd h (by simp)
  · rw [if_neg h1] at h
    by_cases h2 : (w.contract.guesses g).player = a
    · rw [if_pos h2] at h
      by_cases h3 : (w.contract.guesses g).timestamp = 0
      · rw [if_pos h3] at h; exact absurd h (by simp)
      · rw [if_neg h3] at h
        simp only [Except.ok.injEq, Prod.mk.injEq] at h
        exact ⟨h1, h2, h3, h.1.symm, h.2.symm⟩
    · rw [if_neg h2] at h; exact absurd h (by simp)

/-- With a passing attestation, handleEvaluationResult always succeeds,
commits handleSucc and emits GuessEvaluated for the recorded guess. -/
theorem handleEvaluationResult_ok (requestId : Nat) (ct : Bool) (w : World) :
    handleEvaluationResult requestId ct true w =
      .ok (handleSucc requestId ct w,
        [Event.GuessEvaluated (w.contract.requestToGuessId requestId)
          ((w.contract.guesses (w.contract.requestToGuessId requestId)).player) ct]) := by
  cases ct <;> rfl

/-- One evaluate-then-resolve round, on an owned existing guess under an
active answer: the guesses and answer are untouched, the request id counter
advances by one, the owner's wins grow by one and the owner is appended to
the current day's winner list. -/
theorem round_spec (g a : Nat) (w : World)
    (hday : w.contract.currentAnswer.day ≠ 0)
    (hown : (w.contract.guesses g).player = a)
    (hts : (w.contract.guesses g).timestamp ≠ 0) :
    (evalResolveRound g a w).contract.guesses = w.contract.guesses ∧
    (evalResolveRound g a w).contract.currentAnswer = w.contract.currentAnswer ∧
    (evalResolveRound g a w).oracle.nextRequestId = w.oracle.nextRequestId + 1 ∧
    ((evalResolveRound g a w).contract.playerStats a).wins =
      (w.contract.playerStats a).wins + 1 ∧
    (evalResolveRound g a w).contract.dailyWinners w.contract.currentAnswer.day =
      w.contract.dailyWinners w.contract.currentAnswer.day ++ [a] := by
  have h1 : evalResolveRound g a w =
      handleSucc w.oracle.nextRequestId true (evalSucc g w) := by
    unfold evalResolveRound
    rw [show step w (.evaluate g a) = (evalSucc g w, []) from by
      simp [step, evaluateGuess_ok g a w hday hown hts]]
    simp [step, handleEvaluationResult_ok]
  rw [h1]
  simp [handleSucc, evalSucc, Function.update_same, hown]

/-- Case analysis of one call on the guess store: either the guess ledger and
counter are untouched (and the call is not a successful submission), or the
call is a successful submission, the counter grows by one and exactly the new
id receives the submitted guess, whose timestamp is nonzero. -/
theorem step_guess_fields (w : World) (op : Op) :
    ((step w op).1.contract.guessCount = w.contract.guessCount ∧
     (step w op).1.contract.guesses = w.contract.guesses ∧
     submitSuccessBit w op = 0) ∨
    (∃ (l : Fin 5 → Nat) (a t : Nat), op = Op.submit l a t ∧
     submitSuccessBit w op = 1 ∧ t ≠ 0 ∧
     (step w op).1.contract.guessCount = w.contract.guessCount + 1 ∧
     (step w op).1.contract.guesses =
       Function.update w.contract.guesses (w.contract.guessCount + 1) ⟨l, t, a⟩) := by
  cases op with
  | setAnswer l t s => exact Or.inl ⟨rfl, rfl, rfl⟩
  | submit l a t =>
    cases heq : submitGuess l a t w with
    | error msg =>
      left
      refine ⟨?_, ?_, ?_⟩ <;> simp [step, submitSuccessBit, heq]
    | ok r =>
      obtain ⟨-, hcur, -, hw, -⟩ := submitGuess_ok_inv l a t w r.1 r.2 (by rw [heq])
      right
      refine ⟨l, a, t, rfl, by simp [submitSuccessBit, heq], ?_, ?_, ?_⟩
      · intro ht0
        have : t / secondsPerDay = 0 := by rw [ht0]; rfl
        rw [hcur] at this
        have hd := (submitGuess_ok_inv l a t w r.1 r.2 (by rw [heq])).1
        exact hd this
      · have : (step w (Op.submit l a t)).1 = r.1 := by simp [step, heq]
        rw [this, hw]; rfl
      · have : (step w (Op.submit l a t)).1 = r.1 := by simp [step, heq]
        rw [this, hw]; rfl
  | evaluate g a =>
    cases heq : evaluateGuess g a w with
    | error msg =>
      left
      refine ⟨?_, ?_, ?_⟩ <;> simp [step, submitSuccessBit, heq]
    | ok r =>
      obtain ⟨-, -, -, hw, -⟩ := evaluateGuess_ok_inv g a w r.1 r.2 (by rw [heq])
      left
      have hs : (step w (Op.evaluate g a)).1 = r.1 := by simp [step, heq]
      refine ⟨?_, ?_, rfl⟩ <;> rw [hs, hw] <;> rfl
  | handle r c p =>
    cases p with
    | false => exact Or.inl ⟨rfl, rfl, rfl⟩
    | true =>
      left
      have hs : (step w (Op.handle r c true)).1 = handleSucc r c w := by
        simp [step, handleEvaluationResult_ok]
      refine ⟨?_, ?_, rfl⟩ <;> rw [hs] <;> cases c <;> rfl

/-- One call preserves the gap-free guess-ledger shape. -/
theorem goodIds_step (w : World) (op : Op) (h : GoodIds w) : GoodIds (step w op).1 := by
  rcases step_guess_fields w op with ⟨hc, hg, -⟩ | ⟨l, a, t, -, -, hT, hc, hg⟩
  · intro i; rw [hc, hg]; exact h i
  · intro i
    rw [hc, hg]
    by_cases hi : i = w.contract.guessCount + 1
    · subst hi
      rw [Function.update_same]
      exact ⟨fun _ => ⟨by omega, le_refl _⟩, fun _ => hT⟩
    · rw [Function.update_noteq hi, h i]
      constructor
      · rintro ⟨u1, u2⟩; exact ⟨u1, by omega⟩
      · rintro ⟨u1, u2⟩
        refine ⟨u1, ?_⟩
        rcases Nat.lt_or_ge i (w.contract.guessCount + 1) with hlt | hge
        · omega
        · exact absurd (by omega : i = w.contract.guessCount + 1) hi

/-- The guess counter grows exactly by one per successful submission. -/
theorem guessCount_step (w : World) (op : Op) :
    (step w op).1.contract.guessCount =
      w.contract.guessCount + submitSuccessBit w op := by
  rcases step_guess_fields w op with ⟨hc, -, hb⟩ | ⟨l, a, t, -, hb, -, hc, -⟩
  · rw [hc, hb]; omega
  · rw [hc, hb]

/-- No call rewrites a guess already stored under an allocated id. -/
theorem low_guesses_step (w : World) (op : Op) (i : Nat)
    (hi : i ≤ w.contract.guessCount) :
    (step w op).1.contract.guesses i = w.contract.guesses i := by
  rcases step_guess_fields w op with ⟨-, hg, -⟩ | ⟨l, a, t, -, -, -, -, hg⟩
  · rw [hg]
  · rw [hg, Function.update_noteq (by omega)]

/-- Along any trace the guess counter advances by the number of successful
submissions. -/
theorem run_count : ∀ (ops : List Op) (w : World),
    (run w ops).contract.guessCount = w.contract.guessCount + successCount w ops := by
  intro ops
  induction ops with
  | nil => intro w; simp [run, successCount]
  | cons op ops ih =>
    intro w
    show (run (step w op).1 ops).contract.guessCount = _
    rw [ih, guessCount_step]
    show _ = w.contract.guessCount + (submitSuccessBit w op + successCount (step w op).1 ops)
    omega

/-- Any trace preserves the gap-free guess-ledger shape. -/
theorem run_goodIds : ∀ (ops : List Op) (w : World), GoodIds w → GoodIds (run w ops) := by
  intro ops
  induction ops with
  | nil => intro w h; exact h
  | cons op ops ih => intro w h; exact ih (step w op).1 (goodIds_step w op h)

/-- Guesses stored under an already-allocated id survive any trace intact. -/
theorem run_low_guesses : ∀ (ops : List Op) (w : World) (i : Nat),
    i ≤ w.contract.guessCount →
    (run w ops).contract.guesses i = w.contract.guesses i := by
  intro ops
  induction ops with
  | nil => intro w i _; rfl
  | cons op ops ih =>
    intro w i hi
    show (run (step w op).1 ops).contract.guesses i = _
    rw [ih (step w op).1 i (by rw [guessCount_step]; omega), low_guesses_step w op i hi]

/-- Running a concatenated trace runs the two pieces in order. -/
theorem run_append : ∀ (ops ops2 : List Op) (w : World),
    run w (ops ++ ops2) = run (run w ops) ops2 := by
  intro ops
  induction ops with
  | nil => intro ops2 w; rfl
  | cons op ops ih => intro ops2 w; exact ih ops2 (step w op).1

/-- The freshly deployed contract has a gap-free (empty) guess ledger. -/
theorem goodIds_init : GoodIds initWorld := by
  intro i
  constructor
  · intro h; exact absurd rfl h
  · rintro ⟨h1, h2⟩
    have h0 : initWorld.contract.guessCount = 0 := rfl
    omega

/-- C1: resolving the same requestId twice with a passing attestation applies
the win/scoreboard side effect twice — the code accepts the replay instead of
rejecting or ignoring it.  After one resolution player 5 has one win; after
the literal replay of the same call the win counter is 2, the day-7 winner
list holds the player twice, and the replayed call is accepted, returning ok
and committing the doubled state. -/
theorem replay_resolution_double_counts :
    ((run initWorld resolveOnceTrace).contract.playerStats 5).wins = 1 ∧
    ((run initWorld resolveTwiceTrace).contract.playerStats 5).wins = 2 ∧
    (run initWorld resolveTwiceTrace).contract.dailyWinners 7 = [5, 5] ∧
    handleEvaluationResult 1 true true (run initWorld resolveOnceTrace) =
      .ok (run initWorld resolveTwiceTrace, [Event.GuessEvaluated 1 5 true]) :=
  ⟨rfl, rfl, rfl, rfl⟩

/-- C2: a resolution call whose attestation fails verification reverts: it
mutates no durable state (the post-state equals the pre-state, for every
pre-state) and emits no resolution notification. -/
theorem attestation_failure_fail_closed (requestId : Nat) (ct : Bool) (w : World) :
    handleEvaluationResult requestId ct false w = .error "Invalid decryption attestation" ∧
    step w (.handle requestId ct false) = (w, []) := ⟨rfl, rfl⟩

/-- C3: an existing guess may be evaluated by its submitter any number of
times: after n evaluate-and-resolve-true rounds the submitter's wins grew by
n and they appear n more times in the current day's winner list, and a
further evaluateGuess still succeeds, mapping a fresh request id (the ids
increase strictly, by one per round) to the same guess id. -/
theorem evaluateGuess_unlimited_replays (g a : Nat) (w : World)
    (hday : w.contract.currentAnswer.day ≠ 0)
    (hown : (w.contract.guesses g).player = a)
    (hts : (w.contract.guesses g).timestamp ≠ 0) (n : Nat) :
    ((rounds g a n w).contract.playerStats a).wins =
      (w.contract.playerStats a).wins + n ∧
    (rounds g a n w).contract.dailyWinners w.contract.currentAnswer.day =
      w.contract.dailyWinners w.contract.currentAnswer.day ++ List.replicate n a ∧
    (rounds g a n w).oracle.nextRequestId = w.oracle.nextRequestId + n ∧
    evaluateGuess g a (rounds g a n w) = .ok (evalSucc g (rounds g a n w), []) ∧
    (evalSucc g (rounds g a n w)).contract.requestToGuessId
      ((rounds g a n w).oracle.nextRequestId) = g := by
  induction n generalizing w with
  | zero =>
    refine ⟨rfl, by simp [rounds], rfl, evaluateGuess_ok g a w hday hown hts, ?_⟩
    show (evalSucc g w).contract.requestToGuessId w.oracle.nextRequestId = g
    exact Function.update_same _ _ _
  | succ n ih =>
    obtain ⟨r1, r2, r3, r4, r5⟩ := round_spec g a w hday hown hts
    have hday2 : (evalResolveRound g a w).contract.currentAnswer.day ≠ 0 := by
      rw [r2]; exact hday
    have hown2 : ((evalResolveRound g a w).contract.guesses g).player = a := by
      rw [r1]; exact hown
    have hts2 : ((evalResolveRound g a w).contract.guesses g).timestamp ≠ 0 := by
      rw [r1]; exact hts
    obtain ⟨i1, i2, i3, i4, i5⟩ := ih (evalResolveRound g a w) hday2 hown2 hts2
    have hstep : rounds g a (n + 1) w = rounds g a n (evalResolveRound g a w) := rfl
    refine ⟨?_, ?_, ?_, ?_, ?_⟩
    · rw [hstep, i1, r4]; omega
    · rw [r2] at i2
      rw [hstep, i2, r5, List.append_assoc, List.replicate_succ]
      rfl
    · rw [hstep, i3, r3]; omega
    · rw [hstep]; exact i4
    · rw [hstep]; exact i5

/-- C3 witness: two rounds on the concrete day-7 world give player 5 two
extra wins, two more winner-list entries, and a third evaluation that still
succeeds with the next fresh request id mapped to guess 1. -/
theorem evaluateGuess_unlimited_replays_witness :
    ((rounds 1 5 2 w7s).contract.playerStats 5).wins =
      (w7s.contract.playerStats 5).wins + 2 ∧
    (rounds 1 5 2 w7s).contract.dailyWinners w7s.contract.currentAnswer.day =
      w7s.contract.dailyWinners w7s.contract.currentAnswer.day ++ List.replicate 2 5 ∧
    (rounds 1 5 2 w7s).oracle.nextRequestId = w7s.oracle.nextRequestId + 2 ∧
    evaluateGuess 1 5 (rounds 1 5 2 w7s) = .ok (evalSucc 1 (rounds 1 5 2 w7s), []) ∧
    (evalSucc 1 (rounds 1 5 2 w7s)).contract.requestToGuessId
      ((rounds 1 5 2 w7s).oracle.nextRequestId) = 1 :=
  evaluateGuess_unlimited_replays 1 5 w7s (by decide) rfl (by decide) 2

/-- C4: a successful evaluateGuess submits for decryption exactly one flag,
and that flag is the conjunction over the positions 0..4 of the equalities of
guess letter i and answer letter i — a full-word exact match. -/
theorem evaluateGuess_submits_single_full_match_flag (g a : Nat) (w w2 : World)
    (evs : List Event) (h : evaluateGuess g a w = .ok (w2, evs)) :
    w2.oracle.requests = w.oracle.requests ++
      [(w.oracle.nextRequestId,
        [decide (∀ i : Fin 5,
          (w.contract.guesses g).letters i = w.contract.currentAnswer.letters i)])] := by
  obtain ⟨-, -, -, hw, -⟩ := evaluateGuess_ok_inv g a w w2 evs h
  rw [hw]
  show w.oracle.requests ++ _ = _
  rw [computeIsCorrect_eq]

/-- C4 witness: the concrete evaluation of guess 1 on the day-7 world logs
exactly one request carrying the single full-match flag. -/
theorem evaluateGuess_submits_single_full_match_flag_witness :
    (evalSucc 1 w7s).oracle.requests = w7s.oracle.requests ++
      [(w7s.oracle.nextRequestId,
        [decide (∀ i : Fin 5,
          (w7s.contract.guesses 1).letters i = w7s.contract.currentAnswer.letters i)])] :=
  evaluateGuess_submits_single_full_match_flag 1 5 w7s (evalSucc 1 w7s) [] rfl

/-- C5: when the answer for a nonzero period P is active, a participant whose
lastPlayedDay is below P submits successfully, their attempts counter rising
by one and lastPlayedDay becoming P; afterwards every further submission by
the same participant at any timestamp inside P fails with Already played
today and leaves the state — attempts included — unchanged. -/
theorem submit_once_per_period (w : World) (P a t : Nat) (l : Fin 5 → Nat)
    (hday : w.contract.currentAnswer.day = P) (hP : P ≠ 0)
    (ht : t / secondsPerDay = P)
    (hfirst : (w.contract.playerStats a).lastPlayedDay < P) :
    ∃ w2 : World,
      submitGuess l a t w =
        .ok (w2, [Event.GuessSubmitted (w.contract.guessCount + 1) a]) ∧
      (w2.contract.playerStats a).attempts = (w.contract.playerStats a).attempts + 1 ∧
      (w2.contract.playerStats a).lastPlayedDay = P ∧
      ∀ (l2 : Fin 5 → Nat) (t2 : Nat), t2 / secondsPerDay = P →
        submitGuess l2 a t2 w2 = .error "Already played today" ∧
        step w2 (.submit l2 a t2) = (w2, []) := by
  have hok := submitGuess_ok l a t w (hday ▸ hP) (hday ▸ ht)
    (ht ▸ hfirst)
  refine ⟨submitSucc l a t w, hok, ?_, ?_, ?_⟩
  · show (Function.update w.contract.playerStats a _ a).attempts = _
    rw [Function.update_same]
  · show (Function.update w.contract.playerStats a _ a).lastPlayedDay = P
    rw [Function.update_same]; exact ht
  · intro l2 t2 ht2
    have hstats : ((submitSucc l a t w).contract.playerStats a).lastPlayedDay = P := by
      show (Function.update w.contract.playerStats a _ a).lastPlayedDay = P
      rw [Function.update_same]; exact ht
    have hday2 : (submitSucc l a t w).contract.currentAnswer.day = P := hday
    have herr : submitGuess l2 a t2 (submitSucc l a t w) = .error "Already played today" := by
      unfold submitGuess
      rw [if_neg (hday2 ▸ hP), if_pos (ht2.trans hday2.symm),
        if_neg (by rw [hstats, ht2]; exact lt_irrefl P)]
    exact ⟨herr, by simp [step, herr]⟩

/-- C5 witness: on the concrete day-7 world the first submission of player 5
succeeds and any same-day resubmission fails with Already played today. -/
theorem submit_once_per_period_witness :
    ∃ w2 : World,
      submitGuess ansLetters 5 604800 w7 =
        .ok (w2, [Event.GuessSubmitted (w7.contract.guessCount + 1) 5]) ∧
      (w2.contract.playerStats 5).attempts = (w7.contract.playerStats 5).attempts + 1 ∧
      (w2.contract.playerStats 5).lastPlayedDay = 7 ∧
      ∀ (l2 : Fin 5 → Nat) (t2 : Nat), t2 / secondsPerDay = 7 →
        submitGuess l2 5 t2 w2 = .error "Already played today" ∧
        step w2 (.submit l2 5 t2) = (w2, []) :=
  submit_once_per_period w7 7 5 604800 ansLetters rfl (by decide) (by decide) (by decide)

/-- C6: every submission is atomic — it either commits fully (guess stored
under the next id, attempts up by one, lastPlayedDay set to the current
period, every other storage field untouched) or it fails and the state is
completely unchanged. -/
theorem submitGuess_atomic (l : Fin 5 → Nat) (a t : Nat) (w : World) :
    (∃ w2 : World,
      submitGuess l a t w =
        .ok (w2, [Event.GuessSubmitted (w.contract.guessCount + 1) a]) ∧
      w2.contract.guessCount = w.contract.guessCount + 1 ∧
      w2.contract.guesses = Function.update w.contract.guesses
        (w.contract.guessCount + 1) ⟨l, t, a⟩ ∧
      (w2.contract.playerStats a).attempts = (w.contract.playerStats a).attempts + 1 ∧
      (w2.contract.playerStats a).lastPlayedDay = t / secondsPerDay ∧
      (w2.contract.playerStats a).wins = (w.contract.playerStats a).wins ∧
      (∀ b, b ≠ a → w2.contract.playerStats b = w.contract.playerStats b) ∧
      w2.contract.currentAnswer = w.contract.currentAnswer ∧
      w2.contract.dailyWinners = w.contract.dailyWinners ∧
      w2.contract.requestToGuessId = w.contract.requestToGuessId ∧
      w2.oracle = w.oracle) ∨
    (∃ msg, submitGuess l a t w = .error msg ∧ step w (.submit l a t) = (w, [])) := by
  by_cases h1 : w.contract.currentAnswer.day = 0
  · refine Or.inr ⟨"Answer not set", ?_, ?_⟩
    · unfold submitGuess; rw [if_pos h1]
    · have : submitGuess l a t w = .error "Answer not set" := by
        unfold submitGuess; rw [if_pos h1]
      simp [step, this]
  · by_cases h2 : t / secondsPerDay = w.contract.currentAnswer.day
    · by_cases h3 : (w.contract.playerStats a).lastPlayedDay < t / secondsPerDay
      · left
        refine ⟨submitSucc l a t w, submitGuess_ok l a t w h1 h2 h3,
          rfl, rfl, ?_, ?_, ?_, ?_, rfl, rfl, rfl, rfl⟩
        · show (Function.update w.contract.playerStats a _ a).attempts = _
          rw [Function.update_same]
        · show (Function.update w.contract.playerStats a _ a).lastPlayedDay = _
          rw [Function.update_same]
        · show (Function.update w.contract.playerStats a _ a).wins = _
          rw [Function.update_same]
        · intro b hb
          show Function.update w.contract.playerStats a _ b = _
          rw [Function.update_noteq hb]
      · have herr : submitGuess l a t w = .error "Already played today" := by
          unfold submitGuess; rw [if_neg h1, if_pos h2, if_neg h3]
        exact Or.inr ⟨_, herr, by simp [step, herr]⟩
    · have herr : submitGuess l a t w = .error "Not current day" := by
        unfold submitGuess; rw [if_neg h1, if_neg h2]
      exact Or.inr ⟨_, herr, by simp [step, herr]⟩

/-- C6 witness: the atomicity disjunction instantiated at the concrete day-7
world and player 5. -/
theorem submitGuess_atomic_witness :
    (∃ w2 : World,
      submitGuess ansLetters 5 604800 w7 =
        .ok (w2, [Event.GuessSubmitted (w7.contract.guessCount + 1) 5]) ∧
      w2.contract.guessCount = w7.contract.guessCount + 1 ∧
      w2.contract.guesses = Function.update w7.contract.guesses
        (w7.contract.guessCount + 1) ⟨ansLetters, 604800, 5⟩ ∧
      (w2.contract.playerStats 5).attempts = (w7.contract.playerStats 5).attempts + 1 ∧
      (w2.contract.playerStats 5).lastPlayedDay = 604800 / secondsPerDay ∧
      (w2.contract.playerStats 5).wins = (w7.contract.playerStats 5).wins ∧
      (∀ b, b ≠ 5 → w2.contract.playerStats b = w7.contract.playerStats b) ∧
      w2.contract.currentAnswer = w7.contract.currentAnswer ∧
      w2.contract.dailyWinners = w7.contract.dailyWinners ∧
      w2.contract.requestToGuessId = w7.contract.requestToGuessId ∧
      w2.oracle = w7.oracle) ∨
    (∃ msg, submitGuess ansLetters 5 604800 w7 = .error msg ∧
      step w7 (.submit ansLetters 5 604800) = (w7, [])) :=
  submitGuess_atomic ansLetters 5 604800 w7

/-- C7 counterexample: with an active answer and no guess stored under id 1,
the evaluation by the ordinary (nonzero) caller 5 fails with the Not your
guess error, not with the guess-not-found error Invalid guess — the owner
check precedes the existence check. -/
theorem missing_guess_error_is_not_your_guess :
    (w7.contract.guesses 1).timestamp = 0 ∧
    w7.contract.currentAnswer.day ≠ 0 ∧
    evaluateGuess 1 5 w7 = .error "Not your guess" ∧
    "Not your guess" ≠ "Invalid guess" :=
  ⟨rfl, by decide, rfl, by decide⟩

/-- C7 amended: for every guess id holding no guess (a default slot),
evaluateGuess fails and creates no pending evaluation, under any active
answer and for every caller; but the error is Not your guess for every
caller other than the zero address — only the zero address reaches the
guess-not-found error Invalid guess. -/
theorem evaluateGuess_missing_guess_fails (g a : Nat) (w : World)
    (hmiss : w.contract.guesses g = defaultGuess)
    (hday : w.contract.currentAnswer.day ≠ 0) :
    step w (.evaluate g a) = (w, []) ∧
    (a ≠ 0 → evaluateGuess g a w = .error "Not your guess") ∧
    (a = 0 → evaluateGuess g a w = .error "Invalid guess") := by
  have hp : (w.contract.guesses g).player = 0 := by rw [hmiss]; rfl
  have ht : (w.contract.guesses g).timestamp = 0 := by rw [hmiss]; rfl
  by_cases ha : a = 0
  · subst ha
    have he : evaluateGuess g 0 w = .error "Invalid guess" := by
      unfold evaluateGuess
      rw [if_neg hday, if_pos hp, if_pos ht]
    refine ⟨?_, fun hc => absurd rfl hc, fun _ => he⟩
    simp [step, he]
  · have he : evaluateGuess g a w = .error "Not your guess" := by
      unfold evaluateGuess
      rw [if_neg hday, if_neg (by rw [hp]; exact fun hh => ha hh.symm)]
    refine ⟨?_, fun _ => he, fun hc => absurd hc ha⟩
    simp [step, he]

/-- C7 witness: the amended statement at the concrete day-7 world, missing
guess id 1, caller 5. -/
theorem evaluateGuess_missing_guess_fails_witness :
    step w7 (.evaluate 1 5) = (w7, []) ∧
    ((5 : Nat) ≠ 0 → evaluateGuess 1 5 w7 = .error "Not your guess") ∧
    ((5 : Nat) = 0 → evaluateGuess 1 5 w7 = .error "Invalid guess") :=
  evaluateGuess_missing_guess_fails 1 5 w7 rfl (by decide)

/-- C8: setDailyAnswer checks nothing: for every caller and every pre-state
it replaces the active answer, sets its period to timestamp / 1 days, and
emits the new-period notification — no administrative-capability check
exists in the contract. -/
theorem setDailyAnswer_unconditional (l : Fin 5 → Nat) (t sender : Nat) (w : World) :
    setDailyAnswer l t sender w =
      ({ w with contract :=
          { w.contract with currentAnswer := ⟨l, t / secondsPerDay⟩ } },
       [Event.NewDailyAnswer (t / secondsPerDay)]) := rfl

/-- C9: a successful evaluateGuess leaves every player's stats, every day's
winner list, the guess ledger, its counter and the current answer unchanged;
its only contract-storage mutation is recording the fresh request id against
the guess id. -/
theorem evaluateGuess_frame (g a : Nat) (w w2 : World) (evs : List Event)
    (h : evaluateGuess g a w = .ok (w2, evs)) :
    w2.contract.playerStats = w.contract.playerStats ∧
    w2.contract.dailyWinners = w.contract.dailyWinners ∧
    w2.contract.guesses = w.contract.guesses ∧
    w2.contract.guessCount = w.contract.guessCount ∧
    w2.contract.currentAnswer = w.contract.currentAnswer ∧
    w2.contract.requestToGuessId =
      Function.update w.contract.requestToGuessId w.oracle.nextRequestId g := by
  obtain ⟨-, -, -, hw, -⟩ := evaluateGuess_ok_inv g a w w2 evs h
  rw [hw]
  exact ⟨rfl, rfl, rfl, rfl, rfl, rfl⟩

/-- C9 witness: the frame at the concrete successful evaluation of guess 1 on
the day-7 world. -/
theorem evaluateGuess_frame_witness :
    (evalSucc 1 w7s).contract.playerStats = w7s.contract.playerStats ∧
    (evalSucc 1 w7s).contract.dailyWinners = w7s.contract.dailyWinners ∧
    (evalSucc 1 w7s).contract.guesses = w7s.contract.guesses ∧
    (evalSucc 1 w7s).contract.guessCount = w7s.contract.guessCount ∧
    (evalSucc 1 w7s).contract.currentAnswer = w7s.contract.currentAnswer ∧
    (evalSucc 1 w7s).contract.requestToGuessId =
      Function.update w7s.contract.requestToGuessId w7s.oracle.nextRequestId 1 :=
  evaluateGuess_frame 1 5 w7s (evalSucc 1 w7s) [] rfl

/-- C10: guess ids are 1-based, strictly monotonic, unique and gap-free: in
every trace from deployment the counter equals the number of successful
submissions, an id holds a stored guess exactly when it lies between 1 and
that count, a stored guess is never overwritten by any further trace, and a
successful submission is always stored under the id one past the previous
counter, with exactly the submitted data. -/
theorem guessIds_sequential :
    (∀ ops : List Op,
      (run initWorld ops).contract.guessCount = successCount initWorld ops ∧
      ∀ i, ((run initWorld ops).contract.guesses i).timestamp ≠ 0 ↔
            1 ≤ i ∧ i ≤ successCount initWorld ops) ∧
    (∀ (ops ops2 : List Op) (i : Nat), i ≤ (run initWorld ops).contract.guessCount →
      (run initWorld (ops ++ ops2)).contract.guesses i =
        (run initWorld ops).contract.guesses i) ∧
    (∀ (l : Fin 5 → Nat) (a t : Nat) (w w2 : World) (evs : List Event),
      submitGuess l a t w = .ok (w2, evs) →
      w2.contract.guessCount = w.contract.guessCount + 1 ∧
      w2.contract.guesses (w.contract.guessCount + 1) = ⟨l, t, a⟩) := by
  have h0 : initWorld.contract.guessCount = 0 := rfl
  refine ⟨fun ops => ⟨?_, ?_⟩, ?_, ?_⟩
  · rw [run_count, h0, Nat.zero_add]
  · intro i
    have h := run_goodIds ops initWorld goodIds_init i
    rw [run_count, h0, Nat.zero_add] at h
    exact h
  · intro ops ops2 i hi
    rw [run_append]
    exact run_low_guesses ops2 (run initWorld ops) i hi
  · intro l a t w w2 evs h
    obtain ⟨-, -, -, hw, -⟩ := submitGuess_ok_inv l a t w w2 evs h
    rw [hw]
    exact ⟨rfl, Function.update_same _ _ _⟩

/-- C10 witness: after one concrete successful submission, id 1 holds a
stored guess, and it survives a later evaluation unchanged. -/
theorem guessIds_sequential_witness :
    ((run initWorld oneSubmitTrace).contract.guesses 1).timestamp ≠ 0 ∧
    (run initWorld (oneSubmitTrace ++ [.evaluate 1 5])).contract.guesses 1 =
      (run initWorld oneSubmitTrace).contract.guesses 1 :=
  ⟨((guessIds_sequential.1 oneSubmitTrace).2 1).mpr (by decide),
   guessIds_sequential.2.1 oneSubmitTrace [.evaluate 1 5] 1 (by decide)⟩

end WordGameFHE
